import Mathlib

/-!
Verification of the signing/verification dispatch layer of a JWT library
(`src/crypto/mod.rs`). The dispatcher (`validate_matching_key`, `sign`,
`verify`, `sign_hmac`) is embedded directly from the source. The external
collaborators the source consumes through narrow interfaces — the HMAC
primitive and the RSA sign/verify primitives — are parameters of the
embedding (the spec treats them as black boxes). The base64url codec
(`crate::serialization`) and the RSA adapter module (`crypto/rsa.rs`) are
repository code not present under `src/`; they are modelled from the spec
and marked as such.
-/

namespace Jwt

/-- The closed enumeration of signing algorithm identifiers
(`crate::Algorithm`, per spec §3). -/
inductive Algorithm where
  | None
  | HS256
  | HS384
  | HS512
  | RS256
  | RS384
  | RS512
  | PS256
  | PS384
  | PS512
deriving DecidableEq

/-- Key material usable to produce a signature (`crate::encoding::EncodingKey`,
per spec §3). Byte strings and opaque key handles are lists of byte values. -/
inductive EncodingKey where
  | None
  | OctetSeq (s : List Nat)
  | Rsa (k : List Nat)
deriving DecidableEq

/-- Key material usable to verify a signature (`crate::decoding::DecodingKey`,
per spec §3). -/
inductive DecodingKey where
  | None
  | OctetSeq (s : List Nat)
  | Rsa (k : List Nat)
deriving DecidableEq

/-- Error kinds surfaced by the dispatcher (spec §7): incompatible
key/algorithm pair, unusable or undecodable signature, and delegated
primitive errors (e.g. a malformed asymmetric key). -/
inductive ErrorKind where
  | InvalidAlgorithm
  | InvalidSignature
  | InvalidRsaKey
deriving DecidableEq

/-- Result of running a Rust function that may also panic: `panicked` models
reaching `unreachable!` or a failing `unwrap`, distinct from a typed error. -/
inductive Outcome (α : Type) where
  | panicked
  | ok (v : α)
  | err (e : ErrorKind)
deriving DecidableEq

/-- Map a function over the success value, as Rust Result map does. -/
def Outcome.map (f : α → β) : Outcome α → Outcome β
  | .panicked => .panicked
  | .ok v => .ok (f v)
  | .err e => .err e

/-- Whether the computation panicked. -/
def Outcome.panics : Outcome α → Bool
  | .panicked => true
  | _ => false

/-- Modelled from the spec: character of the URL-safe base64 alphabet for a
sextet value (`crate::serialization` is not under `src/`; spec §6 specifies
URL-safe base64 without padding). -/
def sextetToChar (v : Nat) : Char :=
  Char.ofNat
    (if v < 26 then 65 + v
     else if v < 52 then 97 + (v - 26)
     else if v < 62 then 48 + (v - 52)
     else if v = 62 then 45
     else 95)

/-- Modelled from the spec: sextet value of a URL-safe base64 character,
`Option.none` on a character outside the alphabet. -/
def charToSextet (c : Char) : Option Nat :=
  let n := c.toNat
  if 65 ≤ n ∧ n ≤ 90 then Option.some (n - 65)
  else if 97 ≤ n ∧ n ≤ 122 then Option.some (n - 97 + 26)
  else if 48 ≤ n ∧ n ≤ 57 then Option.some (n - 48 + 52)
  else if n = 45 then Option.some 62
  else if n = 95 then Option.some 63
  else Option.none

/-- Modelled from the spec: split a byte string into base64 sextet values,
unpadded (3 bytes → 4 sextets, 1 trailing byte → 2 sextets, 2 → 3). -/
def b64EncodeVals : List Nat → List Nat
  | [] => []
  | [b1] => [b1 / 4, b1 % 4 * 16]
  | [b1, b2] => [b1 / 4, b1 % 4 * 16 + b2 / 16, b2 % 16 * 4]
  | b1 :: b2 :: b3 :: rest =>
      (b1 / 4) :: (b1 % 4 * 16 + b2 / 16) :: (b2 % 16 * 4 + b3 / 64) ::
        (b3 % 64) :: b64EncodeVals rest

/-- Modelled from the spec: reassemble bytes from base64 sextet values;
a length congruent to 1 mod 4 is not a valid unpadded encoding. -/
def b64DecodeVals : List Nat → Option (List Nat)
  | [] => Option.some []
  | [_] => Option.none
  | [c1, c2] => Option.some [c1 * 4 + c2 / 16]
  | [c1, c2, c3] => Option.some [c1 * 4 + c2 / 16, c2 % 16 * 16 + c3 / 4]
  | c1 :: c2 :: c3 :: c4 :: rest =>
      match b64DecodeVals rest with
      | Option.some bs =>
          Option.some ((c1 * 4 + c2 / 16) :: (c2 % 16 * 16 + c3 / 4) ::
            (c3 % 4 * 64 + c4) :: bs)
      | Option.none => Option.none

/-- Map every character to its sextet value; any character outside the
alphabet fails the whole decode. -/
def decodeChars : List Char → Option (List Nat)
  | [] => Option.some []
  | c :: cs =>
      match charToSextet c, decodeChars cs with
      | Option.some v, Option.some vs => Option.some (v :: vs)
      | _, _ => Option.none

/-- Modelled from the spec: `b64_encode` of `crate::serialization` — URL-safe
base64 without padding of a byte string. -/
def b64_encode (bytes : List Nat) : String :=
  String.mk ((b64EncodeVals bytes).map sextetToChar)

/-- Modelled from the spec: `b64_decode` of `crate::serialization` — URL-safe
base64 decoding, failing on characters outside the alphabet or an impossible
length. -/
def b64_decode (s : String) : Option (List Nat) :=
  match decodeChars s.data with
  | Option.some vs => b64DecodeVals vs
  | Option.none => Option.none

/-- The abstract HMAC primitive (spec §1: `hmac(hashAlgo, key, message) →
tag`, a black-box collaborator). The algorithm argument selects the hash
width; the library accepts key material of any length, so the function is
total — this embeds the documented infallibility of `new_from_slice` for
HMAC (spec §9). -/
def HmacFun : Type := Algorithm → List Nat → String → List Nat

/-- The abstract RSA signing primitive over raw bytes (spec §1:
`rsaSign(paddingScheme, hashAlgo, key, message) → signature | Error`); the
algorithm carries padding scheme and hash width. -/
def RsaSignFun : Type := Algorithm → List Nat → String → Except ErrorKind (List Nat)

/-- The abstract RSA verification primitive over raw signature bytes
(spec §1: `rsaVerify(paddingScheme, hashAlgo, key, signature, message) →
bool | Error`). -/
def RsaVerifyFun : Type := Algorithm → List Nat → String → List Nat → Except ErrorKind Bool

/-- Embedding of `sign_hmac` from `src/crypto/mod.rs` lines 18–41: for HS256/HS384/HS512
compute the MAC over the message bytes and base64url-encode the tag; every
other algorithm hits `unreachable!`, i.e. panics. -/
def sign_hmac (hmac : HmacFun) (alg : Algorithm) (key : List Nat)
    (message : String) : Outcome String :=
  match alg with
  | .HS256 => .ok (b64_encode (hmac .HS256 key message))
  | .HS384 => .ok (b64_encode (hmac .HS384 key message))
  | .HS512 => .ok (b64_encode (hmac .HS512 key message))
  | _ => .panicked

/-- Embedding of `validate_matching_key` from `src/crypto/mod.rs` lines 44–71. -/
def validate_matching_key (key : EncodingKey) (algorithm : Algorithm) :
    Outcome Unit :=
  match key with
  | .None =>
      match algorithm with
      | .None => .ok ()
      | _ => .err .InvalidAlgorithm
  | .OctetSeq _ =>
      match algorithm with
      | .HS256 => .ok ()
      | .HS384 => .ok ()
      | .HS512 => .ok ()
      | _ => .err .InvalidAlgorithm
  | .Rsa _ =>
      match algorithm with
      | .RS256 | .PS256 | .PS384 | .PS512 | .RS384 | .RS512 => .ok ()
      | _ => .err .InvalidAlgorithm

/-- Modelled from the spec: `rsa::sign` of `crypto/rsa.rs` (not under
`src/`) — delegate to the RSA primitive with the padding scheme and hash
width selected by the algorithm, propagate its errors as-is, and return the
base64url encoding of the raw signature (spec §4.2, §6). -/
def rsaModSign (rsaS : RsaSignFun) (alg : Algorithm) (key : List Nat)
    (message : String) : Outcome String :=
  match rsaS alg key message with
  | .ok sigBytes => .ok (b64_encode sigBytes)
  | .error e => .err e

/-- Modelled from the spec: `rsa::verify` of `crypto/rsa.rs` (not under
`src/`) — base64url-decode the supplied signature (decode failure fails with
`InvalidSignature`, not a panic: spec §8), then delegate to the RSA
primitive, returning its boolean and propagating its errors as-is
(spec §4.2). -/
def rsaModVerify (rsaV : RsaVerifyFun) (alg : Algorithm) (signature : String)
    (message : String) (key : List Nat) : Outcome Bool :=
  match b64_decode signature with
  | Option.none => .err .InvalidSignature
  | Option.some sigBytes =>
      match rsaV alg sigBytes message key with
      | .ok b => .ok b
      | .error e => .err e

/-- Embedding of `sign` from `src/crypto/mod.rs` lines 77–107. -/
def sign (hmac : HmacFun) (rsaS : RsaSignFun) (message : String)
    (key : EncodingKey) (algorithm : Algorithm) : Outcome (Option String) :=
  match key with
  | .None =>
      match algorithm with
      | .None => .ok Option.none
      | _ => .err .InvalidAlgorithm
  | .OctetSeq s =>
      match algorithm with
      | .HS256 | .HS384 | .HS512 =>
          (sign_hmac hmac algorithm s message).map Option.some
      | _ => .err .InvalidAlgorithm
  | .Rsa k =>
      match algorithm with
      | .RS256 | .RS384 | .RS512 | .PS256 | .PS384 | .PS512 =>
          (rsaModSign rsaS algorithm k message).map Option.some
      | _ => .err .InvalidAlgorithm

/-- Embedding of `verify` from `src/crypto/mod.rs` lines 117–159. On the HMAC arms the
recomputed tag is compared with the base64url-decoded signature
(`Mac::verify_slice` succeeds exactly on equality with the full tag). -/
def verify (hmac : HmacFun) (rsaV : RsaVerifyFun) (signature : String)
    (message : String) (key : DecodingKey) (algorithm : Algorithm) :
    Outcome Bool :=
  match key with
  | .None => .err .InvalidSignature
  | .OctetSeq s =>
      match algorithm with
      | .HS256 =>
          match b64_decode signature with
          | Option.none => .err .InvalidSignature
          | Option.some decoded => .ok (decide (decoded = hmac .HS256 s message))
      | .HS384 =>
          match b64_decode signature with
          | Option.none => .err .InvalidSignature
          | Option.some decoded => .ok (decide (decoded = hmac .HS384 s message))
      | .HS512 =>
          match b64_decode signature with
          | Option.none => .err .InvalidSignature
          | Option.some decoded => .ok (decide (decoded = hmac .HS512 s message))
      | _ => .err .InvalidAlgorithm
  | .Rsa k =>
      match algorithm with
      | .RS256 | .RS384 | .RS512 | .PS256 | .PS384 | .PS512 =>
          rsaModVerify rsaV algorithm signature message k
      | _ => .err .InvalidAlgorithm

/-- The decoding key corresponding to an encoding key (spec §3): the same
shared secret for the symmetric family, the matching public key (an abstract
map on key handles) for RSA. -/
def correspondingDecodingKey (pubOf : List Nat → List Nat) :
    EncodingKey → DecodingKey
  | .None => .None
  | .OctetSeq s => .OctetSeq s
  | .Rsa k => .Rsa (pubOf k)

/-- A concrete executable stand-in for the HMAC black box, used to evaluate
theorems at concrete inputs: a deterministic byte-valued function of key and
message. -/
def hmacModel : HmacFun :=
  fun _ k m => (k ++ m.data.map Char.toNat).map (fun b => b % 256)

/-- A concrete executable stand-in for the RSA signing black box. -/
def rsaSignModel : RsaSignFun :=
  fun _ k m => .ok ((k ++ m.data.map Char.toNat).map (fun b => b % 256))

/-- A concrete executable stand-in for the RSA verification black box,
accepting exactly the bytes `rsaSignModel` produces for the same key. -/
def rsaVerifyModel : RsaVerifyFun :=
  fun _ sig m k => .ok (decide (sig = (k ++ m.data.map Char.toNat).map (fun b => b % 256)))

/-- Decoding a base64 character produced from a sextet value below 64
recovers the value. -/
theorem charToSextet_sextetToChar (v : Nat) (h : v < 64) :
    charToSextet (sextetToChar v) = Option.some v := by
  have h64 : ∀ w : Fin 64, charToSextet (sextetToChar w.val) = Option.some w.val := by
    decide
  exact h64 ⟨v, h⟩

/-- Every sextet value produced by the encoder from genuine bytes is below
64. -/
theorem b64EncodeVals_lt (bytes : List Nat) (h : ∀ b ∈ bytes, b < 256) :
    ∀ v ∈ b64EncodeVals bytes, v < 64 := by
  induction bytes using b64EncodeVals.induct with
  | case1 => simp [b64EncodeVals]
  | case2 b1 =>
      have hb1 : b1 < 256 := h b1 (by simp)
      intro v hv
      simp [b64EncodeVals] at hv
      rcases hv with rfl | rfl <;> omega
  | case3 b1 b2 =>
      have hb1 : b1 < 256 := h b1 (by simp)
      have hb2 : b2 < 256 := h b2 (by simp)
      intro v hv
      simp [b64EncodeVals] at hv
      rcases hv with rfl | rfl | rfl <;> omega
  | case4 b1 b2 b3 rest ih =>
      have hb1 : b1 < 256 := h b1 (by simp)
      have hb2 : b2 < 256 := h b2 (by simp)
      have hb3 : b3 < 256 := h b3 (by simp)
      intro v hv
      simp only [b64EncodeVals, List.mem_cons] at hv
      rcases hv with rfl | rfl | rfl | rfl | hv
      · omega
      · omega
      · omega
      · omega
      · exact ih (fun b hb => h b (by simp [hb])) v hv

/-- Reassembling the sextet values of genuine bytes recovers the bytes. -/
theorem b64DecodeVals_b64EncodeVals (bytes : List Nat)
    (h : ∀ b ∈ bytes, b < 256) :
    b64DecodeVals (b64EncodeVals bytes) = Option.some bytes := by
  induction bytes using b64EncodeVals.induct with
  | case1 => rfl
  | case2 b1 =>
      have hb1 : b1 < 256 := h b1 (by simp)
      simp [b64EncodeVals, b64DecodeVals]
      omega
  | case3 b1 b2 =>
      have hb1 : b1 < 256 := h b1 (by simp)
      have hb2 : b2 < 256 := h b2 (by simp)
      simp [b64EncodeVals, b64DecodeVals]
      constructor <;> omega
  | case4 b1 b2 b3 rest ih =>
      have hb1 : b1 < 256 := h b1 (by simp)
      have hb2 : b2 < 256 := h b2 (by simp)
      have hb3 : b3 < 256 := h b3 (by simp)
      have hrest := ih (fun b hb => h b (by simp [hb]))
      simp [b64EncodeVals, b64DecodeVals, hrest]
      refine ⟨by omega, by omega, by omega⟩

/-- Decoding the characters of an encoded sextet sequence recovers the
sextets. -/
theorem decodeChars_map_sextetToChar (vs : List Nat) (h : ∀ v ∈ vs, v < 64) :
    decodeChars (vs.map sextetToChar) = Option.some vs := by
  induction vs with
  | nil => rfl
  | cons v vs ih =>
      have h1 := charToSextet_sextetToChar v (h v (by simp))
      have h2 := ih (fun w hw => h w (by simp [hw]))
      simp [decodeChars, h1, h2]

/-- Round trip of the base64url codec on genuine byte strings. -/
theorem b64_decode_b64_encode (bytes : List Nat) (h : ∀ b ∈ bytes, b < 256) :
    b64_decode (b64_encode bytes) = Option.some bytes := by
  show (match decodeChars ((b64EncodeVals bytes).map sextetToChar) with
    | Option.some vs => b64DecodeVals vs
    | Option.none => Option.none) = Option.some bytes
  rw [decodeChars_map_sextetToChar _ (b64EncodeVals_lt bytes h)]
  exact b64DecodeVals_b64EncodeVals bytes h

/-- Mapping a function over an outcome preserves whether it panicked. -/
theorem Outcome.map_panics (f : α → β) (o : Outcome α) :
    (Outcome.map f o).panics = o.panics := by
  cases o <;> rfl

/-- The RSA signing adapter surfaces primitive failures as typed errors and
never panics. -/
theorem rsaModSign_not_panicking (rsaS : RsaSignFun) (alg : Algorithm)
    (k : List Nat) (msg : String) :
    (rsaModSign rsaS alg k msg).panics = false := by
  cases hs : rsaS alg k msg <;> simp [rsaModSign, hs, Outcome.panics]

/-- Mapping the value into an option commutes with reading off a success. -/
theorem Outcome.map_some_eq_ok (o : Outcome α) (x : α) :
    Outcome.map Option.some o = Outcome.ok (Option.some x) ↔ o = Outcome.ok x := by
  cases o <;> simp [Outcome.map]

/-- Round trip through the RSA adapter: when the adapter signs successfully
and the primitive pair is consistent (verification with the corresponding
public key accepts what signing produced), verifying the adapter's encoded
output succeeds. -/
theorem rsaMod_roundtrip (rsaS : RsaSignFun) (rsaV : RsaVerifyFun)
    (pubOf : List Nat → List Nat)
    (hBytes : ∀ a k m sb, rsaS a k m = Except.ok sb → ∀ b ∈ sb, b < 256)
    (hPrim : ∀ a k m sb, rsaS a k m = Except.ok sb →
      rsaV a sb m (pubOf k) = Except.ok true)
    (alg : Algorithm) (k : List Nat) (msg : String) (sig : String)
    (h : rsaModSign rsaS alg k msg = Outcome.ok sig) :
    rsaModVerify rsaV alg sig msg (pubOf k) = Outcome.ok true := by
  cases hs : rsaS alg k msg with
  | ok sb =>
      have hsig : b64_encode sb = sig := by
        simp [rsaModSign, hs] at h
        exact h
      subst hsig
      simp [rsaModVerify, b64_decode_b64_encode sb (hBytes alg k msg sb hs),
        hPrim alg k msg sb hs]
  | error e => simp [rsaModSign, hs] at h

/-- The spec-side compatibility table, transcribed from the words of
spec §4.1: None accepts only `Algorithm::None`; OctetSeq accepts exactly
HS256, HS384, HS512; Rsa accepts exactly RS256, RS384, RS512, PS256, PS384,
PS512. -/
def specCompatTable (key : EncodingKey) (alg : Algorithm) : Bool :=
  match key, alg with
  | .None, .None => true
  | .OctetSeq _, .HS256 => true
  | .OctetSeq _, .HS384 => true
  | .OctetSeq _, .HS512 => true
  | .Rsa _, .RS256 => true
  | .Rsa _, .RS384 => true
  | .Rsa _, .RS512 => true
  | .Rsa _, .PS256 => true
  | .Rsa _, .PS384 => true
  | .Rsa _, .PS512 => true
  | _, _ => false

/-- C1: for every EncodingKey variant and every Algorithm value,
`validate_matching_key` returns success exactly when the pair appears in the
compatibility table of spec §4.1, and every other pair fails with
`InvalidAlgorithm`. -/
theorem validate_matching_key_matches_table (key : EncodingKey)
    (alg : Algorithm) :
    validate_matching_key key alg =
      (if specCompatTable key alg then Outcome.ok ()
       else Outcome.err ErrorKind.InvalidAlgorithm) := by
  cases key <;> cases alg <;> rfl

/-- C2: an Rsa key with an HMAC or None algorithm fails with
`InvalidAlgorithm` in both `sign` and `verify`, and an OctetSeq key with any
non-HS algorithm fails with `InvalidAlgorithm` in both `sign` and `verify`;
no such call succeeds or substitutes a different algorithm. -/
theorem mismatched_family_rejected (hmac : HmacFun) (rsaS : RsaSignFun)
    (rsaV : RsaVerifyFun) (msg sig : String) (s k : List Nat)
    (algH algN : Algorithm)
    (hH : algH = .HS256 ∨ algH = .HS384 ∨ algH = .HS512 ∨ algH = .None)
    (hN1 : algN ≠ .HS256) (hN2 : algN ≠ .HS384) (hN3 : algN ≠ .HS512) :
    sign hmac rsaS msg (.Rsa k) algH = Outcome.err ErrorKind.InvalidAlgorithm ∧
    verify hmac rsaV sig msg (.Rsa k) algH = Outcome.err ErrorKind.InvalidAlgorithm ∧
    sign hmac rsaS msg (.OctetSeq s) algN = Outcome.err ErrorKind.InvalidAlgorithm ∧
    verify hmac rsaV sig msg (.OctetSeq s) algN = Outcome.err ErrorKind.InvalidAlgorithm := by
  refine ⟨?_, ?_, ?_, ?_⟩
  · rcases hH with rfl | rfl | rfl | rfl <;> rfl
  · rcases hH with rfl | rfl | rfl | rfl <;> rfl
  · cases algN <;> first
      | rfl
      | exact absurd rfl hN1
      | exact absurd rfl hN2
      | exact absurd rfl hN3
  · cases algN <;> first
      | rfl
      | exact absurd rfl hN1
      | exact absurd rfl hN2
      | exact absurd rfl hN3

/-- Witness for C2 at HS256 against an Rsa key and RS256 against an OctetSeq
key. -/
theorem mismatched_family_rejected_witness :
    sign hmacModel rsaSignModel "m" (.Rsa [1]) .HS256 = Outcome.err ErrorKind.InvalidAlgorithm ∧
    verify hmacModel rsaVerifyModel "s" "m" (.Rsa [1]) .HS256 = Outcome.err ErrorKind.InvalidAlgorithm ∧
    sign hmacModel rsaSignModel "m" (.OctetSeq [2]) .RS256 = Outcome.err ErrorKind.InvalidAlgorithm ∧
    verify hmacModel rsaVerifyModel "s" "m" (.OctetSeq [2]) .RS256 = Outcome.err ErrorKind.InvalidAlgorithm :=
  mismatched_family_rejected hmacModel rsaSignModel rsaVerifyModel "m" "s"
    [2] [1] .HS256 .RS256 (Or.inl rfl) (by decide) (by decide) (by decide)

/-- C3: for every supported (key, algorithm) pair and every message, a
signature produced by `sign` verifies as `true` against the same message
with the corresponding decoding key and the same algorithm, given the
spec's black-box contract for the RSA primitive pair (byte-valued output,
and the verifier accepts what the signer produced under the corresponding
public key). -/
theorem sign_verify_roundtrip (hmac : HmacFun) (rsaS : RsaSignFun)
    (rsaV : RsaVerifyFun) (pubOf : List Nat → List Nat)
    (hTag : ∀ (a : Algorithm) (k : List Nat) (m : String), ∀ b ∈ hmac a k m, b < 256)
    (hRsaBytes : ∀ a k m sb, rsaS a k m = Except.ok sb → ∀ b ∈ sb, b < 256)
    (hRsa : ∀ a k m sb, rsaS a k m = Except.ok sb →
      rsaV a sb m (pubOf k) = Except.ok true)
    (msg : String) (key : EncodingKey) (alg : Algorithm) (sig : String)
    (hsig : sign hmac rsaS msg key alg = Outcome.ok (Option.some sig)) :
    verify hmac rsaV sig msg (correspondingDecodingKey pubOf key) alg =
      Outcome.ok true := by
  cases key with
  | None => cases alg <;> simp [sign] at hsig
  | OctetSeq s =>
      cases alg <;> simp [sign, sign_hmac, Outcome.map] at hsig <;>
        (subst hsig;
         simp [correspondingDecodingKey, verify,
           b64_decode_b64_encode _ (hTag .HS256 s msg),
           b64_decode_b64_encode _ (hTag .HS384 s msg),
           b64_decode_b64_encode _ (hTag .HS512 s msg)])
  | Rsa k =>
      cases alg <;> simp [sign, Outcome.map_some_eq_ok] at hsig <;>
        (simp only [correspondingDecodingKey, verify];
         exact rsaMod_roundtrip rsaS rsaV pubOf hRsaBytes hRsa _ k msg sig hsig)

/-- Witness for C3: an HMAC round trip at a concrete key and message, with
the concrete model primitives. -/
theorem sign_verify_roundtrip_witness :
    verify hmacModel rsaVerifyModel (b64_encode (hmacModel .HS256 [1] "m")) "m"
      (correspondingDecodingKey id (EncodingKey.OctetSeq [1])) .HS256 =
      Outcome.ok true := by
  have hTag : ∀ (a : Algorithm) (k : List Nat) (m : String),
      ∀ b ∈ hmacModel a k m, b < 256 := by
    intro a k m b hb
    simp [hmacModel] at hb
    rcases hb with ⟨x, -, rfl⟩ | ⟨c, -, rfl⟩ <;> omega
  have hRsaBytes : ∀ (a : Algorithm) (k : List Nat) (m : String) (sb : List Nat),
      rsaSignModel a k m = Except.ok sb → ∀ b ∈ sb, b < 256 := by
    intro a k m sb hsb b hb
    simp [rsaSignModel] at hsb
    subst hsb
    simp at hb
    rcases hb with ⟨x, -, rfl⟩ | ⟨c, -, rfl⟩ <;> omega
  have hRsa : ∀ (a : Algorithm) (k : List Nat) (m : String) (sb : List Nat),
      rsaSignModel a k m = Except.ok sb →
      rsaVerifyModel a sb m (id k) = Except.ok true := by
    intro a k m sb hsb
    simp [rsaSignModel] at hsb
    subst hsb
    simp [rsaVerifyModel]
  exact sign_verify_roundtrip hmacModel rsaSignModel rsaVerifyModel id
    hTag hRsaBytes hRsa "m" (EncodingKey.OctetSeq [1]) Algorithm.HS256 _ rfl

/-- C4: `verify` with key `DecodingKey::None` fails with `InvalidSignature`
for every signature, message and algorithm — a hard refusal, never
`Ok(false)` and never `InvalidAlgorithm`. -/
theorem verify_none_key_invalid_signature (hmac : HmacFun)
    (rsaV : RsaVerifyFun) (sig msg : String) (alg : Algorithm) :
    verify hmac rsaV sig msg DecodingKey.None alg =
      Outcome.err ErrorKind.InvalidSignature := rfl

/-- C5 counterexample: the claim says `verify` with `Algorithm::None` and
key `None` never fails, but at a concrete input it fails with
`InvalidSignature`. -/
theorem verify_none_none_fails :
    verify hmacModel rsaVerifyModel "sig" "msg" DecodingKey.None
      Algorithm.None = Outcome.err ErrorKind.InvalidSignature := rfl

/-- C5 (amended): `sign` with `Algorithm::None` and key `None` never fails,
returning `Ok` of the absent option for every message; `verify` with key
`None` always fails. -/
theorem sign_none_none_ok (hmac : HmacFun) (rsaS : RsaSignFun)
    (msg : String) :
    sign hmac rsaS msg EncodingKey.None Algorithm.None =
      Outcome.ok Option.none := rfl

/-- C6: `sign` with an OctetSeq key and an HS algorithm succeeds, returning
the present option of the URL-safe unpadded base64 encoding of the MAC tag
computed over the message with the hash width implied by the algorithm and
the secret as MAC key. -/
theorem sign_octetseq_hmac (hmac : HmacFun) (rsaS : RsaSignFun)
    (s : List Nat) (msg : String) (alg : Algorithm)
    (h : alg = .HS256 ∨ alg = .HS384 ∨ alg = .HS512) :
    sign hmac rsaS msg (.OctetSeq s) alg =
      Outcome.ok (Option.some (b64_encode (hmac alg s msg))) := by
  rcases h with rfl | rfl | rfl <;> rfl

/-- Witness for C6 at HS256, a concrete secret and message. -/
theorem sign_octetseq_hmac_witness :
    sign hmacModel rsaSignModel "ab" (EncodingKey.OctetSeq [1, 2]) .HS256 =
      Outcome.ok (Option.some (b64_encode (hmacModel .HS256 [1, 2] "ab"))) :=
  sign_octetseq_hmac hmacModel rsaSignModel [1, 2] "ab" .HS256 (Or.inl rfl)

/-- C7: for both symmetric and asymmetric keys with a compatible algorithm,
`verify` on a signature string that is not valid URL-safe base64 fails with
`InvalidSignature` (in particular it does not panic). -/
theorem verify_bad_base64_invalid_signature (hmac : HmacFun)
    (rsaV : RsaVerifyFun) (sig msg : String) (s k : List Nat)
    (algS algR : Algorithm)
    (hdec : b64_decode sig = Option.none)
    (hS : algS = .HS256 ∨ algS = .HS384 ∨ algS = .HS512)
    (hR : algR = .RS256 ∨ algR = .RS384 ∨ algR = .RS512 ∨
      algR = .PS256 ∨ algR = .PS384 ∨ algR = .PS512) :
    verify hmac rsaV sig msg (.OctetSeq s) algS =
      Outcome.err ErrorKind.InvalidSignature ∧
    verify hmac rsaV sig msg (.Rsa k) algR =
      Outcome.err ErrorKind.InvalidSignature := by
  constructor
  · rcases hS with rfl | rfl | rfl <;> simp [verify, hdec]
  · rcases hR with rfl | rfl | rfl | rfl | rfl | rfl <;>
      simp [verify, rsaModVerify, hdec]

/-- Witness for C7: the one-character string of an exclamation mark is not
valid base64. -/
theorem verify_bad_base64_invalid_signature_witness :
    verify hmacModel rsaVerifyModel "!" "m" (.OctetSeq [1]) .HS256 =
      Outcome.err ErrorKind.InvalidSignature ∧
    verify hmacModel rsaVerifyModel "!" "m" (.Rsa [2]) .RS256 =
      Outcome.err ErrorKind.InvalidSignature :=
  verify_bad_base64_invalid_signature hmacModel rsaVerifyModel "!" "m"
    [1] [2] .HS256 .RS256 (by decide) (Or.inl rfl) (Or.inl rfl)

/-- C8: for an OctetSeq key with an HS algorithm and a signature that
decodes as valid base64 to bytes different from the recomputed MAC tag,
`verify` returns a normal `Ok(false)`, not an error. -/
theorem verify_hmac_mismatch_false (hmac : HmacFun) (rsaV : RsaVerifyFun)
    (sig msg : String) (s bytes : List Nat) (alg : Algorithm)
    (hA : alg = .HS256 ∨ alg = .HS384 ∨ alg = .HS512)
    (hdec : b64_decode sig = Option.some bytes)
    (hne : bytes ≠ hmac alg s msg) :
    verify hmac rsaV sig msg (.OctetSeq s) alg = Outcome.ok false := by
  rcases hA with rfl | rfl | rfl <;> simp [verify, hdec, hne]

/-- Witness for C8: "AA" decodes to the single zero byte, which differs from
the model MAC tag of the empty message under the empty secret. -/
theorem verify_hmac_mismatch_false_witness :
    verify hmacModel rsaVerifyModel "AA" "" (.OctetSeq []) .HS256 =
      Outcome.ok false :=
  verify_hmac_mismatch_false hmacModel rsaVerifyModel "AA" "" [] [0] .HS256
    (Or.inl rfl) (by decide) (by decide)

/-- C9: `sign` never panics for any (EncodingKey, Algorithm) pair: `sign`
only invokes `sign_hmac` with HS algorithms, so the unreachable branch is
never taken (the unwrap on HMAC key construction is infallible for key
material of any length and is embedded as a total function; RSA adapter
failures are typed errors, never aborts). -/
theorem sign_no_panic (hmac : HmacFun) (rsaS : RsaSignFun) (msg : String)
    (key : EncodingKey) (alg : Algorithm) :
    (sign hmac rsaS msg key alg).panics = false := by
  cases key with
  | None => cases alg <;> rfl
  | OctetSeq s => cases alg <;> rfl
  | Rsa k =>
      cases alg <;> simp only [sign] <;> first
        | rfl
        | rw [Outcome.map_panics, rsaModSign_not_panicking]

/-- C10: for an OctetSeq key with any non-HS algorithm, `verify` returns
`InvalidAlgorithm` for every signature string — even one that is not valid
base64 — because the algorithm check precedes signature decoding. -/
theorem verify_octetseq_invalid_alg_precedence (hmac : HmacFun)
    (rsaV : RsaVerifyFun) (sig msg : String) (s : List Nat) (alg : Algorithm)
    (h1 : alg ≠ .HS256) (h2 : alg ≠ .HS384) (h3 : alg ≠ .HS512) :
    verify hmac rsaV sig msg (.OctetSeq s) alg =
      Outcome.err ErrorKind.InvalidAlgorithm := by
  cases alg <;> first
    | rfl
    | exact absurd rfl h1
    | exact absurd rfl h2
    | exact absurd rfl h3

/-- Witness for C10: with a non-base64 signature string and algorithm RS256
against an OctetSeq key, the error is `InvalidAlgorithm`, not
`InvalidSignature`. -/
theorem verify_octetseq_invalid_alg_precedence_witness :
    verify hmacModel rsaVerifyModel "!" "m" (.OctetSeq [7]) .RS256 =
      Outcome.err ErrorKind.InvalidAlgorithm :=
  verify_octetseq_invalid_alg_precedence hmacModel rsaVerifyModel "!" "m"
    [7] .RS256 (by decide) (by decide) (by decide)

end Jwt
